import Mathlib

/-!
Shallow embedding of the ETL data-migration pipeline
(orchestrator, metrics, extractors, validator, loader)
for checking the natural-language specification against the code.

Machine-level conventions of the embedding:
* pandas DataFrames are column-oriented tables (`DataFrame`); every column
  carries a dtype tag, since pandas accessor errors (`.dt`, `.str`) depend
  on the dtype;
* Python exceptions are `Except PyError`; a function that cannot raise is
  total;
* side effects on the metrics collector and the error handler are recorded
  as an event trace (`MEvent`), writes to the target store as a write list;
* external I/O (CSV files, the sqlite source, the target database) is a
  parameter `Env` of the run: every execution of the pipeline corresponds
  to one choice of `Env`;
* float arithmetic of the business rules (margin percentage) is abstracted
  to integer arithmetic; no claim depends on the numeric values.
-/

/-- Python exception kinds that the modelled code can raise. -/
inductive PyError where
  | fileNotFound
  | keyError
  | attributeError
  | typeError
  | dbError
deriving DecidableEq, Repr

deriving instance DecidableEq for Except

/-- pandas dtype tag of a column (only the distinctions the code observes). -/
inductive Dtype where
  | datetime
  | numeric
  | string
deriving DecidableEq, Repr

/-- A cell value. Datetimes carry the (year, month) fields the code reads. -/
inductive Value where
  | int (n : Int)
  | str (s : String)
  | datetime (year month : Int)
  | null
deriving DecidableEq, Repr

/-- One pandas column: a name, a dtype and the cell values. -/
structure Column where
  name : String
  dtype : Dtype
  values : List Value
deriving DecidableEq, Repr

/-- A pandas DataFrame, column-oriented. -/
structure DataFrame where
  cols : List Column
deriving DecidableEq, Repr

/-- Column names of the frame (`df.columns`). -/
def DataFrame.columns (df : DataFrame) : List String :=
  df.cols.map Column.name

/-- Membership test `name in df.columns`. -/
def DataFrame.hasCol (df : DataFrame) (name : String) : Bool :=
  df.cols.any (fun c => c.name == name)

/-- Column read `df[name]` as an optional lookup; `none` is a Python
`KeyError`. -/
def DataFrame.getCol (df : DataFrame) (name : String) : Option Column :=
  df.cols.find? (fun c => c.name == name)

/-- Row count of the frame (`len(df)`). -/
def DataFrame.nrows (df : DataFrame) : Nat :=
  match df.cols with
  | [] => 0
  | c :: _ => c.values.length

/-- Emptiness test `df.empty`. -/
def DataFrame.empty (df : DataFrame) : Bool :=
  df.nrows == 0

/-- Column assignment `df[name] = series`: overwrite in place when the name
exists, append at the end otherwise (pandas dict-of-columns semantics). -/
def DataFrame.setCol (df : DataFrame) (name : String) (dtype : Dtype)
    (vals : List Value) : DataFrame :=
  if df.cols.any (fun c => c.name == name) then
    ⟨df.cols.map (fun c => if c.name == name then ⟨name, dtype, vals⟩ else c)⟩
  else
    ⟨df.cols ++ [⟨name, dtype, vals⟩]⟩

/-- Scalar assignment `df[name] = scalar`: the scalar is broadcast to every
row. -/
def DataFrame.setColScalar (df : DataFrame) (name : String) (dtype : Dtype)
    (v : Value) : DataFrame :=
  df.setCol name dtype (List.replicate df.nrows v)

/-- Accessor `series.dt.year`: available only on a datetime column, otherwise pandas
raises `AttributeError`. -/
def Column.dtYear (c : Column) : Except PyError (List Value) :=
  if c.dtype = Dtype.datetime then
    Except.ok (c.values.map (fun v =>
      match v with
      | Value.datetime y _ => Value.int y
      | _ => Value.null))
  else
    Except.error PyError.attributeError

/-- Accessor `series.dt.month`: same access rule as `Column.dtYear`. -/
def Column.dtMonth (c : Column) : Except PyError (List Value) :=
  if c.dtype = Dtype.datetime then
    Except.ok (c.values.map (fun v =>
      match v with
      | Value.datetime _ m => Value.int m
      | _ => Value.null))
  else
    Except.error PyError.attributeError

/-- Python `str.lower()`, modelled characterwise. -/
def pyLower (s : String) : String :=
  String.mk (s.data.map Char.toLower)

/-- Python `str.strip()`: drop whitespace from both ends. -/
def pyStrip (s : String) : String :=
  String.mk
    (((s.data.dropWhile Char.isWhitespace).reverse.dropWhile
      Char.isWhitespace).reverse)

/-- Accessor chain `series.str.lower().str.strip()`: available only on a string column,
otherwise pandas raises; lowercases then strips each value. -/
def Column.strLowerStrip (c : Column) : Except PyError (List Value) :=
  if c.dtype = Dtype.string then
    Except.ok (c.values.map (fun v =>
      match v with
      | Value.str s => Value.str (pyStrip (pyLower s))
      | _ => Value.null))
  else
    Except.error PyError.attributeError

/-- Elementwise product of two numeric columns
(`df[a] * df[b]`); non-numeric operands raise `TypeError`. -/
def Column.mulCols (a b : Column) : Except PyError (List Value) :=
  if a.dtype = Dtype.numeric ∧ b.dtype = Dtype.numeric then
    Except.ok (List.zipWith (fun x y =>
      match x, y with
      | Value.int m, Value.int n => Value.int (m * n)
      | _, _ => Value.null) a.values b.values)
  else
    Except.error PyError.typeError

/-- Margin formula `((price - cost) / price * 100).round(2)` on two
numeric columns; float
arithmetic abstracted to integer arithmetic. -/
def Column.marginPct (price cost : Column) : Except PyError (List Value) :=
  if price.dtype = Dtype.numeric ∧ cost.dtype = Dtype.numeric then
    Except.ok (List.zipWith (fun p c =>
      match p, c with
      | Value.int p, Value.int c => Value.int ((p - c) * 100 / p)
      | _, _ => Value.null) price.values cost.values)
  else
    Except.error PyError.typeError

/-- The guarded `total_amount` assignment of the orders branch of
`ETLOrchestrator._apply_business_logic`:
`if 'quantity' in df.columns and 'unit_price' in df.columns`. -/
def ordersTotalStep (df : DataFrame) : Except PyError DataFrame :=
  if df.hasCol "quantity" ∧ df.hasCol "unit_price" then
    match df.getCol "quantity", df.getCol "unit_price" with
    | some q, some u =>
      (Column.mulCols q u).map
        (fun vals => df.setCol "total_amount" Dtype.numeric vals)
    | _, _ => Except.ok df
  else Except.ok df

/-- The unguarded derived-field assignments of the orders branch:
`df['order_year'] = df['order_date'].dt.year` then
`df['order_month'] = df['order_date'].dt.month`. A missing `order_date`
is a `KeyError`; `.dt` on a non-datetime column is an `AttributeError`. -/
def ordersDateStep (df1 : DataFrame) : Except PyError DataFrame :=
  match df1.getCol "order_date" with
  | none => Except.error PyError.keyError
  | some od =>
    match od.dtYear with
    | Except.error e => Except.error e
    | Except.ok years =>
      match (df1.setCol "order_year" Dtype.numeric years).getCol
          "order_date" with
      | none => Except.error PyError.keyError
      | some od2 =>
        match od2.dtMonth with
        | Except.error e => Except.error e
        | Except.ok months =>
          Except.ok ((df1.setCol "order_year" Dtype.numeric years).setCol
            "order_month" Dtype.numeric months)

/-- The orders branch of `_apply_business_logic`: the guarded
`total_amount` step, then the unguarded derived-field step. -/
def ordersLogic (df : DataFrame) : Except PyError DataFrame :=
  match ordersTotalStep df with
  | Except.error e => Except.error e
  | Except.ok df1 => ordersDateStep df1

/-- The customers branch of `_apply_business_logic`: guarded email
normalization `df['email'].str.lower().str.strip()`. -/
def customersLogic (df : DataFrame) : Except PyError DataFrame :=
  if df.hasCol "email" then
    match df.getCol "email" with
    | none => Except.error PyError.keyError
    | some em =>
      (em.strLowerStrip).map
        (fun vals => df.setCol "email" Dtype.string vals)
  else Except.ok df

/-- The products branch of `_apply_business_logic`: guarded margin
computation. -/
def productsLogic (df : DataFrame) : Except PyError DataFrame :=
  if df.hasCol "price" ∧ df.hasCol "cost" then
    match df.getCol "price", df.getCol "cost" with
    | some p, some c =>
      (Column.marginPct p c).map
        (fun vals => df.setCol "margin_pct" Dtype.numeric vals)
    | _, _ => Except.ok df
  else Except.ok df

/-- Model of `ETLOrchestrator._apply_business_logic`
(src/src/pipeline/orchestrator.py):
table-specific business rules, dispatched on the table name; any unhandled
name falls through to `return df`. -/
def applyBusinessLogic (df : DataFrame) (table_name : String) :
    Except PyError DataFrame :=
  if table_name = "orders" then
    ordersLogic df
  else if table_name = "customers" then
    customersLogic df
  else if table_name = "products" then
    productsLogic df
  else
    Except.ok df

/-- Validation verdict returned by the validator capability
(src/src/transform/validator.py and spec section 4.4). -/
structure ValidationResult where
  is_valid : Bool
  warnings : List String
  quality_score : Nat
deriving DecidableEq, Repr

/-- Model of `DataValidator.validate` (src/src/transform/validator.py):
always valid
for demo purposes. -/
def DataValidator.validate (df : DataFrame) (table_name : String) :
    ValidationResult :=
  ⟨true, [], 100⟩

/-- Modelled from the spec: `src/transform/cleaner.py` is imported by the
orchestrator but absent from the sources. Spec section 4.4 specifies only
`clean(Dataset, table_identifier) → Dataset`, total (never fails), and
says nothing about what the cleaner does to the data; the identity is
used here as one admissible instance of that contract so the
orchestrator's control flow can be exercised on concrete runs. No
claim's verdict rests on cleaner-specific data behavior the spec does
not state. -/
def DataCleaner.clean (df : DataFrame) (table_name : String) : DataFrame :=
  df

/-- Modelled from the spec: `src/utils/error_handler.py` is imported by the
orchestrator but absent from the sources. Spec section 4.3:
`handle_error(error, context)` always succeeds, logs the error with the
context attached, returns nothing and does not decide control flow. The
orchestrator records each invocation in its event trace. -/
def ErrorHandler.handle_error (e : PyError)
    (context : List (String × String)) : Unit :=
  ()

/-- The summary dict returned by `PipelineMetrics.get_summary`
(src/src/utils/metrics.py). -/
structure RunSummary where
  status : String
  duration_seconds : Nat
  total_extracted : Nat
  total_loaded : Nat
  avg_quality_score : Nat
deriving DecidableEq, Repr

/-- Model of `PipelineMetrics.start_pipeline` (src/src/utils/metrics.py):
the class
holds no state; the method body is `pass`. -/
def PipelineMetrics.start_pipeline (run_id : String) : Unit := ()

/-- Model of `PipelineMetrics.end_pipeline` (src/src/utils/metrics.py):
`pass`. -/
def PipelineMetrics.end_pipeline (run_id : String) (status : String) :
    Unit := ()

/-- Model of `PipelineMetrics.record_extraction`
(src/src/utils/metrics.py):
`pass`. -/
def PipelineMetrics.record_extraction (table : String) (count : Nat) :
    Unit := ()

/-- Model of `PipelineMetrics.record_transformation`
(src/src/utils/metrics.py):
`pass`. -/
def PipelineMetrics.record_transformation (table : String)
    (input_count output_count quality_score : Nat) : Unit := ()

/-- Model of `PipelineMetrics.record_load` (src/src/utils/metrics.py):
`pass`. -/
def PipelineMetrics.record_load (table : String) (count : Nat) : Unit := ()

/-- Model of `PipelineMetrics.get_summary` (src/src/utils/metrics.py):
returns the
same constant dict for every run id, independent of anything recorded. -/
def PipelineMetrics.get_summary (run_id : String) : RunSummary :=
  { status := "SUCCESS"
    duration_seconds := 0
    total_extracted := 0
    total_loaded := 0
    avg_quality_score := 100 }

/-- A call made by the orchestrator to the metrics collector or the error
handler, recorded in order in the run's event trace. -/
inductive MEvent where
  | startPipeline (run_id : String)
  | endPipeline (run_id : String) (status : String)
  | recordExtraction (table : String) (count : Nat)
  | recordTransformation (table : String)
      (input_count output_count quality_score : Nat)
  | recordLoad (table : String) (count : Nat)
  | handleError (context : List (String × String))
deriving DecidableEq, Repr

/-- The external world one pipeline execution runs against: the CSV source
directory, the sqlite source, the validator capability, the target
database, and the wall clock. `csvFiles t = none` models a missing
`t.csv` file; `some (Except.error e)` a pandas read failure;
`writeOk t = false` a failing `to_sql` write. The source directory and the
configuration are assumed well formed (otherwise the orchestrator's
constructor already fails and no run starts). -/
structure Env where
  csvFiles : String → Option (Except PyError DataFrame)
  dbTables : String → Except PyError DataFrame
  validate : DataFrame → String → ValidationResult
  writeOk : String → Bool
  now : Value

/-- Model of `CSVExtractor.extract` (src/src/extract/csv_extractor.py):
raise
`FileNotFoundError` when `{table}.csv` is absent, re-raise any pandas read
failure, and otherwise return the parsed frame extended with the metadata
columns `_extracted_at` (a timestamp scalar) and `_source_file` (the file
name). -/
def CSVExtractor.extract (env : Env) (table_name : String) :
    Except PyError DataFrame :=
  match env.csvFiles table_name with
  | none => Except.error PyError.fileNotFound
  | some (Except.error e) => Except.error e
  | some (Except.ok df) =>
    Except.ok
      ((df.setColScalar "_extracted_at" Dtype.datetime env.now).setColScalar
        "_source_file" Dtype.string (Value.str (table_name ++ ".csv")))

/-- Model of `DatabaseExtractor.extract_table`
(src/src/extract/db_extractor.py)
with `db_type = 'sqlite'` as constructed by the orchestrator: a plain
`SELECT *` whose result (or failure) is the sqlite source's answer. -/
def DatabaseExtractor.extract_table (env : Env) (table_name : String) :
    Except PyError DataFrame :=
  env.dbTables table_name

/-- Python dict assignment `d[k] = v` on an insertion-ordered dict:
overwrite in place when the key exists, append otherwise. -/
def upsert (l : List (String × DataFrame)) (k : String) (v : DataFrame) :
    List (String × DataFrame) :=
  if l.any (fun p => p.1 == k) then
    l.map (fun p => if p.1 == k then (k, v) else p)
  else
    l ++ [(k, v)]

/-- The CSV loop of `ETLOrchestrator._extract_phase`: each table is
extracted inside its own try block; a success is recorded and added to the
dict, a failure is forwarded to the error handler and the loop continues. -/
def extractCsvLoop (env : Env) (acc : List (String × DataFrame)) :
    List String → List (String × DataFrame) × List MEvent
  | [] => (acc, [])
  | t :: rest =>
    match CSVExtractor.extract env t with
    | Except.ok df =>
      let r := extractCsvLoop env (upsert acc t df) rest
      (r.1, MEvent.recordExtraction t df.nrows :: r.2)
    | Except.error _ =>
      let r := extractCsvLoop env acc rest
      (r.1, MEvent.handleError [("table", t)] :: r.2)

/-- The CSV table list of `ETLOrchestrator._extract_phase`:
`[table] if table else ['orders', 'customers']`. -/
def csvTablesFor (table : Option String) : List String :=
  match table with
  | some t => [t]
  | none => ["orders", "customers"]

/-- The sqlite step of `ETLOrchestrator._extract_phase`: extract
`products` inside its own try block, record a success into the dict,
forward a failure to the error handler. -/
def extractDbStep (env : Env)
    (r : List (String × DataFrame) × List MEvent) :
    List (String × DataFrame) × List MEvent :=
  match DatabaseExtractor.extract_table env "products" with
  | Except.ok df =>
    (upsert r.1 "products" df,
      r.2 ++ [MEvent.recordExtraction "products" df.nrows])
  | Except.error _ =>
    (r.1, r.2 ++ [MEvent.handleError [("table", "products")]])

/-- Model of `ETLOrchestrator._extract_phase`
(src/src/pipeline/orchestrator.py):
the CSV loop over `csvTablesFor table`; then, when no table is named or
the named table is `products`, the sqlite `products` step. -/
def extractPhase (env : Env) (table : Option String) :
    List (String × DataFrame) × List MEvent :=
  if table = none ∨ table = some "products" then
    extractDbStep env (extractCsvLoop env [] (csvTablesFor table))
  else
    extractCsvLoop env [] (csvTablesFor table)

/-- The per-table loop of `ETLOrchestrator._transform_phase`: clean,
validate (warnings only logged), apply business logic, record the
transformation; any exception is forwarded to the error handler and
re-raised, aborting the loop. -/
def transformTables (env : Env) :
    List (String × DataFrame) →
    Except PyError (List (String × DataFrame)) × List MEvent
  | [] => (Except.ok [], [])
  | (name, df) :: rest =>
    match applyBusinessLogic (DataCleaner.clean df name) name with
    | Except.error e =>
      (Except.error e,
        [MEvent.handleError [("table", name), ("phase", "transform")]])
    | Except.ok dft =>
      match transformTables env rest with
      | (Except.error e, evs) =>
        (Except.error e,
          MEvent.recordTransformation name df.nrows dft.nrows
            (env.validate (DataCleaner.clean df name) name).quality_score
            :: evs)
      | (Except.ok out, evs) =>
        (Except.ok ((name, dft) :: out),
          MEvent.recordTransformation name df.nrows dft.nrows
            (env.validate (DataCleaner.clean df name) name).quality_score
            :: evs)

/-- The per-table loop of `ETLOrchestrator._load_phase`: write each frame
with `DatabaseLoader.load_full` / `load_incremental` (a `to_sql` of the
whole frame; on success the row count written is `len(df)`), record the
load; a write failure is forwarded to the error handler and re-raised,
aborting the loop. The third component lists the writes that reached the
target store, as (table, mode, frame). -/
def loadTables (env : Env) (mode : String) :
    List (String × DataFrame) →
    Except PyError Unit × List MEvent × List (String × String × DataFrame)
  | [] => (Except.ok (), [], [])
  | (name, df) :: rest =>
    if env.writeOk name then
      ((loadTables env mode rest).1,
        MEvent.recordLoad name df.nrows :: (loadTables env mode rest).2.1,
        (name, mode, df) :: (loadTables env mode rest).2.2)
    else
      (Except.error PyError.dbError,
        [MEvent.handleError [("table", name), ("phase", "load")]], [])

/-- Outcome of one pipeline run: the exception re-raised to the caller (if
any), the ordered trace of metrics / error-handler calls, and the writes
that reached the target store. -/
structure PipeResult where
  raised : Option PyError
  events : List MEvent
  writes : List (String × String × DataFrame)
deriving DecidableEq, Repr

/-- Continuation of `run_full_pipeline` after the load phase: a load
exception triggers `end_pipeline(run_id, "FAILED")`, an error-handler
call and a re-raise; otherwise the run ends with
`end_pipeline(run_id, "SUCCESS")`. `evE`/`evT` are the events of the
earlier phases. -/
def runFullLoad (run_id : String) (evE evT : List MEvent) :
    Except PyError Unit × List MEvent ×
      List (String × String × DataFrame) → PipeResult
  | (Except.error e, evL, ws) =>
    { raised := some e
      events := [MEvent.startPipeline run_id] ++ evE ++ evT ++ evL ++
        [MEvent.endPipeline run_id "FAILED",
          MEvent.handleError [("run_id", run_id)]]
      writes := ws }
  | (Except.ok _, evL, ws) =>
    { raised := none
      events := [MEvent.startPipeline run_id] ++ evE ++ evT ++ evL ++
        [MEvent.endPipeline run_id "SUCCESS"]
      writes := ws }

/-- Continuation of `run_full_pipeline` after the transform phase: a
transform exception triggers `end_pipeline(run_id, "FAILED")`, an
error-handler call and a re-raise; otherwise the load phase runs. -/
def runFullGo (env : Env) (run_id : String) (evE : List MEvent) :
    Except PyError (List (String × DataFrame)) × List MEvent → PipeResult
  | (Except.error e, evT) =>
    { raised := some e
      events := [MEvent.startPipeline run_id] ++ evE ++ evT ++
        [MEvent.endPipeline run_id "FAILED",
          MEvent.handleError [("run_id", run_id)]]
      writes := [] }
  | (Except.ok td, evT) =>
    runFullLoad run_id evE evT (loadTables env "full" td)

/-- Model of `ETLOrchestrator.run_full_pipeline`
(src/src/pipeline/orchestrator.py).
`start_pipeline` is called unconditionally; when the extracted dict is
empty the method returns from inside the try block with no further calls;
otherwise the transform and load phases run with the failure handling of
`runFullGo` and `runFullLoad`. -/
def runFullPipeline (env : Env) (run_id : String) (table : Option String) :
    PipeResult :=
  if (extractPhase env table).1.isEmpty then
    { raised := none
      events := [MEvent.startPipeline run_id] ++ (extractPhase env table).2
      writes := [] }
  else
    runFullGo env run_id (extractPhase env table).2
      (transformTables env (extractPhase env table).1)

/-- Model of `ETLOrchestrator._extract_incremental`
(src/src/pipeline/orchestrator.py): the body is a TODO comment and `pass`,
so the call returns Python `None` for every table. -/
def extractIncremental (table : String) : Option DataFrame :=
  none

/-- Model of `ETLOrchestrator.run_incremental_pipeline`
(src/src/pipeline/orchestrator.py). The `None` returned by
`_extract_incremental` makes `extracted_data.empty` raise
`AttributeError`, which the except block turns into
`end_pipeline(run_id, "FAILED")`, an error-handler call, and a re-raise;
the remaining branches embed the dead code below that access. -/
def runIncrementalPipeline (env : Env) (run_id : String) (table : String) :
    PipeResult :=
  match extractIncremental table with
  | none =>
    { raised := some PyError.attributeError
      events := [MEvent.startPipeline run_id,
        MEvent.endPipeline run_id "FAILED",
        MEvent.handleError [("run_id", run_id), ("table", table)]]
      writes := [] }
  | some df =>
    if df.empty then
      { raised := none
        events := [MEvent.startPipeline run_id,
          MEvent.endPipeline run_id "SUCCESS_NO_DATA"]
        writes := [] }
    else
      match transformTables env [(table, df)] with
      | (Except.error e, evT) =>
        { raised := some e
          events := [MEvent.startPipeline run_id] ++ evT ++
            [MEvent.endPipeline run_id "FAILED",
              MEvent.handleError [("run_id", run_id), ("table", table)]]
          writes := [] }
      | (Except.ok td, evT) =>
        match loadTables env "incremental" td with
        | (Except.error e, evL, ws) =>
          { raised := some e
            events := [MEvent.startPipeline run_id] ++ evT ++ evL ++
              [MEvent.endPipeline run_id "FAILED",
                MEvent.handleError [("run_id", run_id), ("table", table)]]
            writes := ws }
        | (Except.ok _, evL, ws) =>
          { raised := none
            events := [MEvent.startPipeline run_id] ++ evT ++ evL ++
              [MEvent.endPipeline run_id "SUCCESS"]
            writes := ws }

/-- Parsed CLI arguments: `--mode` is restricted by argparse to `full` or
`incremental`, `--table` is optional. -/
structure CliArgs where
  mode : String
  table : Option String
deriving DecidableEq, Repr

/-- Model of `main` (src/src/pipeline/orchestrator.py): dispatch on the
mode; in
incremental mode a missing `--table` logs an error and exits with code 1
before any pipeline run starts (`sys.exit` raises `SystemExit`, which the
`except Exception` clause does not catch); an exception escaping a
pipeline run is caught and turned into exit code 1; otherwise the exit
code is 0. Returns the exit code and the metrics / error-handler trace. -/
def mainCli (env : Env) (run_id : String) (args : CliArgs) :
    Nat × List MEvent :=
  if args.mode = "full" then
    (if (runFullPipeline env run_id args.table).raised.isSome then 1 else 0,
      (runFullPipeline env run_id args.table).events)
  else
    match args.table with
    | none => (1, [])
    | some t =>
      (if (runIncrementalPipeline env run_id t).raised.isSome then 1 else 0,
        (runIncrementalPipeline env run_id t).events)

/-- Is the event an `end_pipeline` call? -/
def MEvent.isEnd : MEvent → Bool
  | MEvent.endPipeline _ _ => true
  | _ => false

/-- Is the event a `start_pipeline` call? -/
def MEvent.isStart : MEvent → Bool
  | MEvent.startPipeline _ => true
  | _ => false

/-- Sum of the row counts passed to `record_extraction` in a trace. -/
def sumExtracted : List MEvent → Nat
  | [] => 0
  | MEvent.recordExtraction _ n :: rest => n + sumExtracted rest
  | _ :: rest => sumExtracted rest

/-- Sample orders frame used by concrete witnesses: two rows with numeric
quantity and unit price and a datetime order date. -/
def ordersDF : DataFrame :=
  ⟨[⟨"order_id", Dtype.numeric, [Value.int 1, Value.int 2]⟩,
    ⟨"order_date", Dtype.datetime,
      [Value.datetime 2024 1, Value.datetime 2024 5]⟩,
    ⟨"quantity", Dtype.numeric, [Value.int 2, Value.int 3]⟩,
    ⟨"unit_price", Dtype.numeric, [Value.int 5, Value.int 7]⟩]⟩

/-- Sample customers frame: three rows with a string email column. -/
def customersDF : DataFrame :=
  ⟨[⟨"customer_id", Dtype.numeric,
      [Value.int 1, Value.int 2, Value.int 3]⟩,
    ⟨"email", Dtype.string,
      [Value.str " A@B.COM ", Value.str "c@d.com", Value.str "E@F.net"]⟩]⟩

/-- Sample products frame: four rows with numeric price and cost. -/
def productsDF : DataFrame :=
  ⟨[⟨"product_id", Dtype.numeric,
      [Value.int 1, Value.int 2, Value.int 3, Value.int 4]⟩,
    ⟨"price", Dtype.numeric,
      [Value.int 10, Value.int 20, Value.int 30, Value.int 40]⟩,
    ⟨"cost", Dtype.numeric,
      [Value.int 5, Value.int 10, Value.int 15, Value.int 20]⟩]⟩

/-- Environment in which every extraction and every write succeeds. -/
def envOk : Env :=
  { csvFiles := fun t =>
      if t = "orders" then some (Except.ok ordersDF)
      else if t = "customers" then some (Except.ok customersDF)
      else none
    dbTables := fun t =>
      if t = "products" then Except.ok productsDF
      else Except.error PyError.dbError
    validate := DataValidator.validate
    writeOk := fun _ => true
    now := Value.datetime 2026 10 }

/-- Environment in which every extraction fails. -/
def envFailAll : Env :=
  { csvFiles := fun _ => none
    dbTables := fun _ => Except.error PyError.dbError
    validate := DataValidator.validate
    writeOk := fun _ => true
    now := Value.datetime 2026 10 }

/-- Environment in which only the orders CSV is missing. -/
def envOrdersMissing : Env :=
  { csvFiles := fun t =>
      if t = "customers" then some (Except.ok customersDF) else none
    dbTables := fun t =>
      if t = "products" then Except.ok productsDF
      else Except.error PyError.dbError
    validate := DataValidator.validate
    writeOk := fun _ => true
    now := Value.datetime 2026 10 }

/-- Environment identical to `envOk` except that the validator capability
reports every table invalid with a low quality score (spec section 4.4
allows any verdict; src's `DataValidator` is one instance). -/
def envValFalse : Env :=
  { envOk with
    validate := fun _ _ => ⟨false, ["row count below threshold"], 40⟩ }

/-- Environment identical to `envOk` except that the target store
refuses every write, making the load phase raise. -/
def envLoadFail : Env :=
  { envOk with writeOk := fun _ => false }

/-- An orders frame with no `order_date` column (and no quantity/price),
used to reach the unguarded access in the orders business rules. -/
def ordersNoDateDF : DataFrame :=
  ⟨[⟨"order_id", Dtype.numeric, [Value.int 1]⟩]⟩

/-- An orders frame whose `order_date` column is not of datetime kind. -/
def ordersTextDateDF : DataFrame :=
  ⟨[⟨"order_id", Dtype.numeric, [Value.int 1]⟩,
    ⟨"order_date", Dtype.string, [Value.str "2024-01-01"]⟩]⟩

/-- An orders frame with a datetime `order_date` but neither `quantity`
nor `unit_price`. -/
def ordersDateOnlyDF : DataFrame :=
  ⟨[⟨"order_date", Dtype.datetime, [Value.datetime 2024 3]⟩]⟩

/-- Environment identical to `envOk` except that the orders CSV parses to
a frame without a datetime `order_date`, making the transform phase
raise. -/
def envOrdersBad : Env :=
  { envOk with
    csvFiles := fun t =>
      if t = "orders" then some (Except.ok ordersNoDateDF)
      else if t = "customers" then some (Except.ok customersDF)
      else none }

/-- The table set extracted by a full run against `envOk`. -/
def extOk : List (String × DataFrame) :=
  (extractPhase envOk none).1

/-- The transform-phase output of a full run against `envOk`. -/
def tdOk : List (String × DataFrame) :=
  ((transformTables envOk extOk).1.toOption).getD []

/-- The table set extracted by a full run against `envOrdersMissing`. -/
def extOM : List (String × DataFrame) :=
  (extractPhase envOrdersMissing none).1

/-- The transform-phase output of a full run against `envOrdersMissing`. -/
def tdOM : List (String × DataFrame) :=
  ((transformTables envOrdersMissing extOM).1.toOption).getD []

/-- The customers frame after business-rule transformation, used by
concrete witnesses. -/
def customersTransformed : DataFrame :=
  (applyBusinessLogic customersDF "customers").toOption.getD ⟨[]⟩

/-- The orders frame as returned by the CSV extractor against `envOk`,
used by concrete witnesses. -/
def ordersExtracted : DataFrame :=
  (CSVExtractor.extract envOk "orders").toOption.getD ⟨[]⟩

/-- Tables whose extraction failed in a full run (no table argument):
a CSV table whose `CSVExtractor.extract` raised, or the sqlite `products`
table whose `DatabaseExtractor.extract_table` raised. -/
def extractionFailedFull (env : Env) (t : String) : Prop :=
  (t ∈ (["orders", "customers"] : List String) ∧
    (CSVExtractor.extract env t).isOk = false) ∨
  (t = "products" ∧
    (DatabaseExtractor.extract_table env "products").isOk = false)

/-- Keys of a dict after assignment: unchanged when the key was present
(the overwritten entry keeps its key), appended otherwise. -/
theorem upsert_keys (l : List (String × DataFrame)) (k : String)
    (v : DataFrame) :
    (upsert l k v).map Prod.fst =
      if l.any (fun p => p.1 == k) then l.map Prod.fst
      else l.map Prod.fst ++ [k] := by
  unfold upsert
  split
  · rw [List.map_map]
    apply List.map_congr_left
    intro p _
    by_cases h : p.1 = k
    · simp [h]
    · simp [beq_eq_false_iff_ne.mpr h, h]
  · simp

/-- A key of the dict after assignment was a key before, or is the new
key. -/
theorem mem_upsert_keys {l : List (String × DataFrame)} {k x : String}
    {v : DataFrame} (h : x ∈ (upsert l k v).map Prod.fst) :
    x ∈ l.map Prod.fst ∨ x = k := by
  rw [upsert_keys] at h
  split at h
  · exact Or.inl h
  · rcases List.mem_append.mp h with h | h
    · exact Or.inl h
    · exact Or.inr (List.mem_singleton.mp h)

/-- Every key of the dict built by the CSV extraction loop either was in
the accumulator or is a table of the list whose extraction succeeded. -/
theorem extractCsvLoop_keys (env : Env) (x : String) :
    ∀ (ts : List String) (acc : List (String × DataFrame)),
      x ∈ ((extractCsvLoop env acc ts).1.map Prod.fst) →
      x ∈ acc.map Prod.fst ∨
        (x ∈ ts ∧ (CSVExtractor.extract env x).isOk = true)
  | [], acc => by
    intro h
    exact Or.inl h
  | t :: rest, acc => by
    intro h
    unfold extractCsvLoop at h
    cases hx : CSVExtractor.extract env t with
    | ok df =>
      rw [hx] at h
      rcases extractCsvLoop_keys env x rest (upsert acc t df) h with h1 | h1
      · rcases mem_upsert_keys h1 with h2 | h2
        · exact Or.inl h2
        · subst h2
          exact Or.inr ⟨List.mem_cons_self _ _, by rw [hx]; rfl⟩
      · exact Or.inr ⟨List.mem_cons_of_mem _ h1.1, h1.2⟩
    | error e =>
      rw [hx] at h
      rcases extractCsvLoop_keys env x rest acc h with h1 | h1
      · exact Or.inl h1
      · exact Or.inr ⟨List.mem_cons_of_mem _ h1.1, h1.2⟩

/-- The CSV extraction loop never calls `end_pipeline`. -/
theorem extractCsvLoop_no_end (env : Env) :
    ∀ (ts : List String) (acc : List (String × DataFrame)),
      ((extractCsvLoop env acc ts).2).filter MEvent.isEnd = []
  | [], acc => rfl
  | t :: rest, acc => by
    unfold extractCsvLoop
    cases hx : CSVExtractor.extract env t with
    | ok df =>
      simp [List.filter, MEvent.isEnd, extractCsvLoop_no_end env rest _]
    | error e =>
      simp [List.filter, MEvent.isEnd, extractCsvLoop_no_end env rest _]

/-- The sqlite step never calls `end_pipeline`. -/
theorem extractDbStep_no_end (env : Env)
    (r : List (String × DataFrame) × List MEvent) :
    ((extractDbStep env r).2).filter MEvent.isEnd =
      r.2.filter MEvent.isEnd := by
  unfold extractDbStep
  cases hdb : DatabaseExtractor.extract_table env "products" with
  | ok df => simp [List.filter_append, List.filter, MEvent.isEnd]
  | error e => simp [List.filter_append, List.filter, MEvent.isEnd]

/-- The extract phase never calls `end_pipeline`. -/
theorem extractPhase_no_end (env : Env) (table : Option String) :
    ((extractPhase env table).2).filter MEvent.isEnd = [] := by
  unfold extractPhase
  split
  · rw [extractDbStep_no_end]
    exact extractCsvLoop_no_end env _ []
  · exact extractCsvLoop_no_end env _ []

/-- A key of the dict after the sqlite step was a key before, or is
`products` with a successful sqlite extraction. -/
theorem extractDbStep_keys (env : Env)
    (r : List (String × DataFrame) × List MEvent) (x : String)
    (h : x ∈ (extractDbStep env r).1.map Prod.fst) :
    x ∈ r.1.map Prod.fst ∨
      (x = "products" ∧
        (DatabaseExtractor.extract_table env "products").isOk = true) := by
  unfold extractDbStep at h
  cases hdb : DatabaseExtractor.extract_table env "products" with
  | ok df =>
    rw [hdb] at h
    rcases mem_upsert_keys h with h1 | h1
    · exact Or.inl h1
    · exact Or.inr ⟨h1, rfl⟩
  | error e =>
    rw [hdb] at h
    exact Or.inl h

/-- Every key of the table set extracted by a full run (no table
argument) is a CSV table whose extraction succeeded or `products` with a
successful sqlite extraction. -/
theorem extractPhase_none_keys (env : Env) (x : String)
    (h : x ∈ (extractPhase env none).1.map Prod.fst) :
    (x ∈ (["orders", "customers"] : List String) ∧
      (CSVExtractor.extract env x).isOk = true) ∨
    (x = "products" ∧
      (DatabaseExtractor.extract_table env "products").isOk = true) := by
  unfold extractPhase at h
  rw [if_pos (Or.inl rfl)] at h
  rcases extractDbStep_keys env _ x h with h1 | h1
  · rcases extractCsvLoop_keys env x _ _ h1 with h2 | h2
    · simp at h2
    · exact Or.inl h2
  · exact Or.inr h1

/-- A table whose extraction failed in a full run is absent from the
extracted table set. -/
theorem extractionFailed_not_mem (env : Env) (t : String)
    (hf : extractionFailedFull env t) :
    t ∉ (extractPhase env none).1.map Prod.fst := by
  intro hmem
  rcases extractPhase_none_keys env t hmem with ⟨hin, hok⟩ | ⟨heq, hok⟩
  · rcases hf with ⟨_, hbad⟩ | ⟨heq, _⟩
    · rw [hok] at hbad
      simp at hbad
    · subst heq
      simp at hin
  · rcases hf with ⟨hin, _⟩ | ⟨_, hbad⟩
    · subst heq
      simp at hin
    · rw [hok] at hbad
      simp at hbad

/-- The transform loop never calls `end_pipeline`. -/
theorem transformTables_no_end (env : Env) :
    ∀ l : List (String × DataFrame),
      ((transformTables env l).2).filter MEvent.isEnd = []
  | [] => rfl
  | (name, df) :: rest => by
    unfold transformTables
    cases hx : applyBusinessLogic (DataCleaner.clean df name) name with
    | ok dft =>
      have ih := transformTables_no_end env rest
      cases hr : transformTables env rest with
      | mk r evs =>
        rw [hr] at ih
        cases r with
        | ok out => simpa [List.filter, MEvent.isEnd] using ih
        | error e => simpa [List.filter, MEvent.isEnd] using ih
    | error e => simp [List.filter, MEvent.isEnd]

/-- The load loop never calls `end_pipeline`. -/
theorem loadTables_no_end (env : Env) (mode : String) :
    ∀ l : List (String × DataFrame),
      ((loadTables env mode l).2.1).filter MEvent.isEnd = []
  | [] => rfl
  | (name, df) :: rest => by
    unfold loadTables
    by_cases hw : env.writeOk name = true
    · simp [hw, List.filter, MEvent.isEnd, loadTables_no_end env mode rest]
    · simp only [Bool.not_eq_true] at hw
      simp [hw, List.filter, MEvent.isEnd]

/-- A successful transform phase preserves the table keys in order. -/
theorem transformTables_ok_keys (env : Env) :
    ∀ (l td : List (String × DataFrame)) (evs : List MEvent),
      transformTables env l = (Except.ok td, evs) →
      td.map Prod.fst = l.map Prod.fst
  | [], td, evs => by
    intro h
    unfold transformTables at h
    cases h
    rfl
  | (name, df) :: rest, td, evs => by
    intro h
    unfold transformTables at h
    cases hx : applyBusinessLogic (DataCleaner.clean df name) name with
    | ok dft =>
      rw [hx] at h
      cases hr : transformTables env rest with
      | mk r evs2 =>
        rw [hr] at h
        cases r with
        | ok out =>
          cases h
          simpa using transformTables_ok_keys env rest out evs2 hr
        | error e => cases h
    | error e =>
      rw [hx] at h
      cases h

/-- Every write the load loop sends to the target store is for one of the
tables it was given. -/
theorem loadTables_writes_keys (env : Env) (mode : String) :
    ∀ (l : List (String × DataFrame)) (w : String × String × DataFrame),
      w ∈ (loadTables env mode l).2.2 → w.1 ∈ l.map Prod.fst
  | [], w => by
    intro h
    exact absurd h (List.not_mem_nil w)
  | (name, df) :: rest, w => by
    intro h
    unfold loadTables at h
    by_cases hw : env.writeOk name = true
    · rw [if_pos hw] at h
      rcases List.mem_cons.mp h with h1 | h1
      · subst h1
        exact List.mem_cons_self _ _
      · exact List.mem_cons_of_mem _
          (loadTables_writes_keys env mode rest w h1)
    · rw [if_neg hw] at h
      exact absurd h (List.not_mem_nil w)

/-- Lookup `find?` by name is unchanged by overwriting a differently-named
column. -/
theorem find?_overwrite_ne (n m : String) (d : Dtype) (v : List Value)
    (h : m ≠ n) :
    ∀ cols : List Column,
      List.find? (fun c => c.name == m)
        (cols.map (fun c => if c.name == n then ⟨n, d, v⟩ else c)) =
      List.find? (fun c => c.name == m) cols
  | [] => rfl
  | c :: cs => by
    rw [List.map_cons]
    by_cases hc : (c.name == n) = true
    · rw [if_pos hc]
      have hcn : c.name = n := beq_iff_eq.mp hc
      have step1 : List.find? (fun x => x.name == m)
          ((⟨n, d, v⟩ : Column) ::
            cs.map (fun c => if c.name == n then ⟨n, d, v⟩ else c)) =
          List.find? (fun x => x.name == m)
            (cs.map (fun c => if c.name == n then ⟨n, d, v⟩ else c)) :=
        List.find?_cons_of_neg _
          (fun hcontra => Ne.symm h (beq_iff_eq.mp hcontra))
      have step2 : List.find? (fun x => x.name == m) (c :: cs) =
          List.find? (fun x => x.name == m) cs :=
        List.find?_cons_of_neg _
          (fun hcontra =>
            Ne.symm h (hcn.symm.trans (beq_iff_eq.mp hcontra)))
      rw [step1, step2]
      exact find?_overwrite_ne n m d v h cs
    · rw [if_neg hc]
      by_cases hm2 : (c.name == m) = true
      · have s1 : List.find? (fun x => x.name == m)
            (c :: cs.map (fun c => if c.name == n then ⟨n, d, v⟩ else c)) =
            some c :=
          List.find?_cons_of_pos _ hm2
        have s2 : List.find? (fun x => x.name == m) (c :: cs) = some c :=
          List.find?_cons_of_pos _ hm2
        rw [s1, s2]
      · have s1 : List.find? (fun x => x.name == m)
            (c :: cs.map (fun c => if c.name == n then ⟨n, d, v⟩ else c)) =
            List.find? (fun x => x.name == m)
              (cs.map (fun c => if c.name == n then ⟨n, d, v⟩ else c)) :=
          List.find?_cons_of_neg _ hm2
        have s2 : List.find? (fun x => x.name == m) (c :: cs) =
            List.find? (fun x => x.name == m) cs :=
          List.find?_cons_of_neg _ hm2
        rw [s1, s2]
        exact find?_overwrite_ne n m d v h cs

/-- Reading a column is unaffected by assigning a differently-named
column. -/
theorem getCol_setCol_ne (df : DataFrame) (n m : String) (d : Dtype)
    (v : List Value) (h : m ≠ n) :
    (df.setCol n d v).getCol m = df.getCol m := by
  unfold DataFrame.setCol DataFrame.getCol
  split
  · exact find?_overwrite_ne n m d v h df.cols
  · rw [List.find?_append]
    have hnone : List.find? (fun c => c.name == m)
        [(⟨n, d, v⟩ : Column)] = none := by
      simp [List.find?, beq_eq_false_iff_ne.mpr (Ne.symm h)]
    rw [hnone]
    cases List.find? (fun c => c.name == m) df.cols <;> rfl

/-- A column name present before an assignment is present after it. -/
theorem hasCol_setCol_of_hasCol (df : DataFrame) (n m : String)
    (d : Dtype) (v : List Value) (h : df.hasCol m = true) :
    (df.setCol n d v).hasCol m = true := by
  unfold DataFrame.setCol DataFrame.hasCol
  unfold DataFrame.hasCol at h
  split
  · rw [List.any_eq_true] at h ⊢
    rcases h with ⟨c, hc, hcm⟩
    by_cases hcn : c.name = n
    · refine ⟨⟨n, d, v⟩, List.mem_map.mpr ⟨c, hc, by simp [hcn]⟩, ?_⟩
      have hmn : m = n := by
        rw [← beq_iff_eq.mp hcm, hcn]
      simp [hmn]
    · exact ⟨c, List.mem_map.mpr ⟨c, hc, by simp [hcn]⟩, hcm⟩
  · rw [List.any_eq_true] at h ⊢
    rcases h with ⟨c, hc, hcm⟩
    exact ⟨c, List.mem_append_left _ hc, hcm⟩

/-- The assigned column name is present after the assignment. -/
theorem hasCol_setCol_self (df : DataFrame) (n : String) (d : Dtype)
    (v : List Value) : (df.setCol n d v).hasCol n = true := by
  unfold DataFrame.setCol DataFrame.hasCol
  split
  · rename_i hany
    rw [List.any_eq_true] at hany ⊢
    rcases hany with ⟨c, hc, hcn⟩
    exact ⟨⟨n, d, v⟩,
      List.mem_map.mpr ⟨c, hc, by simp [beq_iff_eq.mp hcn]⟩, by simp⟩
  · rw [List.any_eq_true]
    exact ⟨⟨n, d, v⟩,
      List.mem_append_right _ (List.mem_singleton.mpr rfl), by simp⟩

/-- The guarded `total_amount` step only ever assigns a column. -/
theorem ordersTotalStep_preserves_hasCol (df df1 : DataFrame) (m : String)
    (h : ordersTotalStep df = Except.ok df1) (hm : df.hasCol m = true) :
    df1.hasCol m = true := by
  unfold ordersTotalStep at h
  split at h
  · cases hq : df.getCol "quantity" with
    | none => simp only [hq] at h; cases h; exact hm
    | some q =>
      cases hu : df.getCol "unit_price" with
      | none => simp only [hq, hu] at h; cases h; exact hm
      | some u =>
        simp only [hq, hu] at h
        cases hmc : Column.mulCols q u with
        | error e => simp only [hmc, Except.map] at h; cases h
        | ok vals =>
          simp only [hmc, Except.map] at h
          cases h
          exact hasCol_setCol_of_hasCol df _ m _ _ hm
  · cases h
    exact hm

/-- The unguarded derived-field step only ever assigns columns. -/
theorem ordersDateStep_preserves_hasCol (df1 dft : DataFrame) (m : String)
    (h : ordersDateStep df1 = Except.ok dft) (hm : df1.hasCol m = true) :
    dft.hasCol m = true := by
  unfold ordersDateStep at h
  cases hod : df1.getCol "order_date" with
  | none => simp only [hod] at h; cases h
  | some od =>
    simp only [hod] at h
    cases hy : od.dtYear with
    | error e => simp only [hy] at h; cases h
    | ok years =>
      simp only [hy] at h
      cases hod2 : (df1.setCol "order_year" Dtype.numeric years).getCol
          "order_date" with
      | none => simp only [hod2] at h; cases h
      | some od2 =>
        simp only [hod2] at h
        cases hmo : od2.dtMonth with
        | error e => simp only [hmo] at h; cases h
        | ok months =>
          simp only [hmo] at h
          cases h
          exact hasCol_setCol_of_hasCol _ _ m _ _
            (hasCol_setCol_of_hasCol df1 _ m _ _ hm)

/-- The business rules only ever assign columns: on success every column
name of the input is still a column name of the output. -/
theorem applyBusinessLogic_preserves_hasCol (df dft : DataFrame)
    (tn m : String) (h : applyBusinessLogic df tn = Except.ok dft)
    (hm : df.hasCol m = true) : dft.hasCol m = true := by
  unfold applyBusinessLogic at h
  split at h
  · unfold ordersLogic at h
    cases ht : ordersTotalStep df with
    | error e => simp only [ht] at h; cases h
    | ok df1 =>
      simp only [ht] at h
      exact ordersDateStep_preserves_hasCol df1 dft m h
        (ordersTotalStep_preserves_hasCol df df1 m ht hm)
  · split at h
    · unfold customersLogic at h
      split at h
      · cases hg : df.getCol "email" with
        | none => simp only [hg] at h; cases h
        | some em =>
          simp only [hg] at h
          cases hs : em.strLowerStrip with
          | error e => simp only [hs, Except.map] at h; cases h
          | ok vals =>
            simp only [hs, Except.map] at h
            cases h
            exact hasCol_setCol_of_hasCol df _ m _ _ hm
      · cases h
        exact hm
    · split at h
      · unfold productsLogic at h
        split at h
        · cases hp : df.getCol "price" with
          | none => simp only [hp] at h; cases h; exact hm
          | some p =>
            cases hc : df.getCol "cost" with
            | none => simp only [hp, hc] at h; cases h; exact hm
            | some c =>
              simp only [hp, hc] at h
              cases hmp : Column.marginPct p c with
              | error e => simp only [hmp, Except.map] at h; cases h
              | ok vals =>
                simp only [hmp, Except.map] at h
                cases h
                exact hasCol_setCol_of_hasCol df _ m _ _ hm
        · cases h
          exact hm
      · cases h
        exact hm

/-- C7: for every dataset and every table name outside
{orders, customers, products}, `_apply_business_logic` returns the
dataset unchanged: the default business-rule transform for an
unrecognized table kind is the identity. -/
theorem applyBusinessLogic_default_identity (df : DataFrame)
    (table_name : String)
    (h1 : table_name ≠ "orders") (h2 : table_name ≠ "customers")
    (h3 : table_name ≠ "products") :
    applyBusinessLogic df table_name = Except.ok df := by
  unfold applyBusinessLogic
  rw [if_neg h1, if_neg h2, if_neg h3]

/-- C7 witness: the unrecognized table name `shipments` maps the sample
orders frame to itself. -/
theorem applyBusinessLogic_default_identity_witness :
    applyBusinessLogic ordersDF "shipments" = Except.ok ordersDF :=
  applyBusinessLogic_default_identity ordersDF "shipments"
    (by decide) (by decide) (by decide)

/-- C3: `_extract_incremental` is an unimplemented stub returning `None`,
so `run_incremental_pipeline` never reaches the zero-row
`SUCCESS_NO_DATA` branch: for every environment, run id and table the
`.empty` access on `None` raises `AttributeError`, the run is ended with
status `FAILED`, and the exception is re-raised — contradicting the
claimed `SUCCESS_NO_DATA` termination on an empty delta. -/
theorem run_incremental_always_fails (env : Env) (run_id table : String) :
    runIncrementalPipeline env run_id table =
      { raised := some PyError.attributeError
        events := [MEvent.startPipeline run_id,
          MEvent.endPipeline run_id "FAILED",
          MEvent.handleError [("run_id", run_id), ("table", table)]]
        writes := [] } :=
  rfl

/-- C3 witness: the failing behavior evaluated at the concrete failing
input `--table orders`. -/
theorem run_incremental_always_fails_witness :
    runIncrementalPipeline envOk "incremental_orders_20260101" "orders" =
      { raised := some PyError.attributeError
        events := [MEvent.startPipeline "incremental_orders_20260101",
          MEvent.endPipeline "incremental_orders_20260101" "FAILED",
          MEvent.handleError [("run_id", "incremental_orders_20260101"),
            ("table", "orders")]]
        writes := [] } :=
  run_incremental_always_fails envOk "incremental_orders_20260101" "orders"

/-- C6: a CLI invocation in incremental mode with `--table` omitted exits
with code 1 and produces an empty metrics trace — in particular
`start_pipeline` is never called, so no run is registered. -/
theorem main_incremental_missing_table (env : Env) (run_id : String) :
    mainCli env run_id { mode := "incremental", table := none } = (1, []) ∧
    (mainCli env run_id
      { mode := "incremental", table := none }).2.filter MEvent.isStart
      = [] := by
  constructor
  · rfl
  · rfl

/-- C6 witness: the concrete invocation against the all-success
environment. -/
theorem main_incremental_missing_table_witness :
    mainCli envOk "run_x" { mode := "incremental", table := none }
      = (1, []) :=
  (main_incremental_missing_table envOk "run_x").1

/-- C4 counterexample: in a full run against `envOk`, `record_extraction`
is passed row counts summing to 9 for the successfully extracted tables,
yet `get_summary` reports `total_extracted = 0`: the summary is not
computed from the recorded records. -/
theorem get_summary_ignores_records_counterexample :
    sumExtracted (runFullPipeline envOk "run_1" none).events = 9 ∧
    (PipelineMetrics.get_summary "run_1").total_extracted = 0 ∧
    (9 : Nat) ≠ 0 := by
  refine ⟨?_, rfl, by decide⟩
  decide

/-- C4 (amended): `get_summary` is a stub that ignores the recorded
records entirely: for every run id it returns the constant summary
(status `SUCCESS`, duration 0, `total_extracted` 0, `total_loaded` 0,
average quality score 100). In particular, when no records exist it
returns zeroed aggregates rather than an error, but `total_extracted` is
0 even when extraction records exist. -/
theorem get_summary_constant (run_id : String) :
    PipelineMetrics.get_summary run_id =
      { status := "SUCCESS"
        duration_seconds := 0
        total_extracted := 0
        total_loaded := 0
        avg_quality_score := 100 } :=
  rfl

/-- C4 witness: the constant summary at a concrete run id. -/
theorem get_summary_constant_witness :
    (PipelineMetrics.get_summary "run_20260101").total_extracted = 0 := by
  rw [get_summary_constant "run_20260101"]

/-- C2 counterexample: in a full run in which every extraction fails
(`envFailAll`), the extracted-table set is empty and `run_full_pipeline`
returns while the run started by `start_pipeline` is never ended:
the trace contains the `start_pipeline` call but no `end_pipeline` call,
refuting the claim that every terminal path (including the empty one)
invokes `end_pipeline` exactly once. -/
theorem run_full_empty_no_end_counterexample :
    (runFullPipeline envFailAll "run_1" none).raised = none ∧
    MEvent.startPipeline "run_1" ∈
      (runFullPipeline envFailAll "run_1" none).events ∧
    ((runFullPipeline envFailAll "run_1" none).events.filter
      MEvent.isEnd) = [] := by
  refine ⟨rfl, ?_, ?_⟩ <;> decide

/-- The guarded `total_amount` step does not touch the `order_date`
column. -/
theorem ordersTotalStep_getCol_order_date (df df1 : DataFrame)
    (h : ordersTotalStep df = Except.ok df1) :
    df1.getCol "order_date" = df.getCol "order_date" := by
  unfold ordersTotalStep at h
  split at h
  · cases hq : df.getCol "quantity" with
    | none => simp only [hq] at h; cases h; rfl
    | some q =>
      cases hu : df.getCol "unit_price" with
      | none => simp only [hq, hu] at h; cases h; rfl
      | some u =>
        simp only [hq, hu] at h
        cases hmc : Column.mulCols q u with
        | error e => simp only [hmc, Except.map] at h; cases h
        | ok vals =>
          simp only [hmc, Except.map] at h
          cases h
          exact getCol_setCol_ne df "total_amount" "order_date"
            Dtype.numeric vals (by decide)
  · cases h
    rfl

/-- The unguarded derived-field step fails whenever the frame has no
datetime `order_date` column. -/
theorem ordersDateStep_not_ok (df1 : DataFrame)
    (hno : ∀ c, df1.getCol "order_date" = some c →
      c.dtype ≠ Dtype.datetime) :
    (ordersDateStep df1).isOk = false := by
  unfold ordersDateStep
  cases hod : df1.getCol "order_date" with
  | none => rfl
  | some od =>
    have hy : od.dtYear = Except.error PyError.attributeError := by
      unfold Column.dtYear
      rw [if_neg (hno od hod)]
    simp only [hy]
    rfl

/-- The unguarded derived-field step succeeds whenever the frame has a
datetime `order_date` column. -/
theorem ordersDateStep_ok (df1 : DataFrame) (c : Column)
    (hod : df1.getCol "order_date" = some c)
    (hdt : c.dtype = Dtype.datetime) :
    (ordersDateStep df1).isOk = true := by
  unfold ordersDateStep
  have hy : ∃ years, c.dtYear = Except.ok years := by
    unfold Column.dtYear
    rw [if_pos hdt]
    exact ⟨_, rfl⟩
  obtain ⟨years, hy⟩ := hy
  have hod2 : (df1.setCol "order_year" Dtype.numeric years).getCol
      "order_date" = some c := by
    rw [getCol_setCol_ne df1 "order_year" "order_date" Dtype.numeric years
      (by decide)]
    exact hod
  have hmo : ∃ months, c.dtMonth = Except.ok months := by
    unfold Column.dtMonth
    rw [if_pos hdt]
    exact ⟨_, rfl⟩
  obtain ⟨months, hmo⟩ := hmo
  simp only [hod, hy, hod2, hmo]
  rfl

/-- C9: for the table name `orders`, `_apply_business_logic`
unconditionally accesses the `order_date` column: it raises for any
orders dataset that lacks an `order_date` column of datetime kind,
while a missing `quantity` (or `unit_price`) column alone never makes it
raise, because those are presence-guarded. -/
theorem orders_order_date_unguarded :
    (∀ df : DataFrame,
      (∀ c, df.getCol "order_date" = some c → c.dtype ≠ Dtype.datetime) →
      (applyBusinessLogic df "orders").isOk = false) ∧
    (∀ (df : DataFrame) (c : Column),
      df.getCol "order_date" = some c → c.dtype = Dtype.datetime →
      df.hasCol "quantity" = false →
      (applyBusinessLogic df "orders").isOk = true) := by
  constructor
  · intro df hno
    unfold applyBusinessLogic
    rw [if_pos rfl]
    unfold ordersLogic
    cases ht : ordersTotalStep df with
    | error e => rfl
    | ok df1 =>
      show (ordersDateStep df1).isOk = false
      refine ordersDateStep_not_ok df1 (fun c hc => hno c ?_)
      rw [← ordersTotalStep_getCol_order_date df df1 ht]
      exact hc
  · intro df c hod hdt hq
    unfold applyBusinessLogic
    rw [if_pos rfl]
    unfold ordersLogic
    have htot : ordersTotalStep df = Except.ok df := by
      unfold ordersTotalStep
      rw [if_neg
        (fun hand => by rw [hq] at hand; exact Bool.noConfusion hand.1)]
    simp only [htot]
    exact ordersDateStep_ok df c hod hdt

/-- C9 witness: the orders frame without `order_date` makes the business
rules raise; the frame with only a datetime `order_date` (no quantity,
no unit price) succeeds. -/
theorem orders_order_date_unguarded_witness :
    (applyBusinessLogic ordersNoDateDF "orders").isOk = false ∧
    (applyBusinessLogic ordersDateOnlyDF "orders").isOk = true := by
  constructor
  · exact orders_order_date_unguarded.1 ordersNoDateDF
      (fun c hc =>
        Option.noConfusion (show (none : Option Column) = some c from hc))
  · exact orders_order_date_unguarded.2 ordersDateOnlyDF
      ⟨"order_date", Dtype.datetime, [Value.datetime 2024 3]⟩
      (by decide) rfl (by decide)

/-- C1: in `run_full_pipeline`, per-table extraction failures are
contained: whenever the transform and load phases succeed on whatever was
extracted, the call raises nothing, regardless of how many per-table
extractions failed. Transform and load failures are fatal in both
directions: whenever (on a nonempty extracted set) the transform phase or
the load phase fails with exception `e`, the call re-raises exactly `e`
and `end_pipeline(run_id, "FAILED")` is recorded before the re-raise;
and conversely every exception the call re-raises came from the
transform phase or the load phase with `FAILED` recorded. -/
theorem run_full_error_policy (env : Env) (run_id : String)
    (table : Option String) :
    ((∃ td, (transformTables env (extractPhase env table).1).1 =
        Except.ok td ∧ (loadTables env "full" td).1 = Except.ok ()) →
      (runFullPipeline env run_id table).raised = none) ∧
    (∀ e, (extractPhase env table).1 ≠ [] →
      ((transformTables env (extractPhase env table).1).1 =
          Except.error e ∨
        (∃ td, (transformTables env (extractPhase env table).1).1 =
            Except.ok td ∧
          (loadTables env "full" td).1 = Except.error e)) →
      ((runFullPipeline env run_id table).raised = some e ∧
        MEvent.endPipeline run_id "FAILED" ∈
          (runFullPipeline env run_id table).events)) ∧
    (∀ e, (runFullPipeline env run_id table).raised = some e →
      MEvent.endPipeline run_id "FAILED" ∈
        (runFullPipeline env run_id table).events ∧
      ((transformTables env (extractPhase env table).1).1 =
          Except.error e ∨
        ∃ td, (transformTables env (extractPhase env table).1).1 =
            Except.ok td ∧
          (loadTables env "full" td).1 = Except.error e)) := by
  unfold runFullPipeline
  by_cases hemp : (extractPhase env table).1.isEmpty = true
  · rw [if_pos hemp]
    refine ⟨?_, ?_, ?_⟩
    · intro _
      rfl
    · intro e hne _
      exact absurd (List.isEmpty_iff.mp hemp) hne
    · intro e he
      exact Option.noConfusion he
  · rw [if_neg hemp]
    cases hT : transformTables env (extractPhase env table).1 with
    | mk tf evT =>
      cases tf with
      | error e0 =>
        simp only [runFullGo]
        refine ⟨?_, ?_, ?_⟩
        · rintro ⟨td, htd, -⟩
          exact Except.noConfusion
            (show Except.error e0 = Except.ok td from htd)
        · intro e hne hdisj
          rcases hdisj with hte | ⟨td, htd, -⟩
          · have h1 : Except.error e0 = Except.error e := hte
            have h2 : e0 = e := by injection h1
            subst h2
            refine ⟨rfl, ?_⟩
            simp
          · exact absurd (show Except.error e0 = Except.ok td from htd)
              (fun hc => Except.noConfusion hc)
        · intro e he
          have he2 : some e0 = some e := he
          have he3 : e0 = e := by injection he2
          subst he3
          constructor
          · simp
          · exact Or.inl rfl
      | ok td0 =>
        simp only [runFullGo]
        cases hL : loadTables env "full" td0 with
        | mk lf lp =>
          cases lp with
          | mk evL ws =>
            cases lf with
            | error e0 =>
              simp only [runFullLoad]
              refine ⟨?_, ?_, ?_⟩
              · rintro ⟨td, htd, hld⟩
                have htd2 : td0 = td := by
                  injection (show Except.ok td0 = Except.ok td from htd)
                subst htd2
                rw [hL] at hld
                exact Except.noConfusion
                  (show Except.error e0 = Except.ok () from hld)
              · intro e hne hdisj
                rcases hdisj with hte | ⟨td, htd, hld⟩
                · exact absurd
                    (show Except.ok td0 = Except.error e from hte)
                    (fun hc => Except.noConfusion hc)
                · have htd2 : td0 = td := by
                    injection (show Except.ok td0 = Except.ok td from htd)
                  subst htd2
                  rw [hL] at hld
                  have h1 : Except.error e0 = Except.error e := hld
                  have h2 : e0 = e := by injection h1
                  subst h2
                  refine ⟨rfl, ?_⟩
                  simp
              · intro e he
                have he2 : some e0 = some e := he
                have he3 : e0 = e := by injection he2
                subst he3
                constructor
                · simp
                · refine Or.inr ⟨td0, rfl, ?_⟩
                  rw [hL]
            | ok u =>
              cases u
              simp only [runFullLoad]
              refine ⟨?_, ?_, ?_⟩
              · intro _
                trivial
              · intro e hne hdisj
                rcases hdisj with hte | ⟨td, htd, hld⟩
                · exact absurd
                    (show Except.ok td0 = Except.error e from hte)
                    (fun hc => Except.noConfusion hc)
                · have htd2 : td0 = td := by
                    injection (show Except.ok td0 = Except.ok td from htd)
                  subst htd2
                  rw [hL] at hld
                  exact absurd
                    (show Except.ok () = Except.error e from hld)
                    (fun hc => Except.noConfusion hc)
              · intro e he
                exact Option.noConfusion he

/-- C1 witness: against `envOk` (transform and load succeed on the
extracted tables) the call raises nothing; against `envOrdersBad` (the
orders frame lacks `order_date`, so the transform phase raises
`KeyError`) the exact exception is re-raised with `end_pipeline("FAILED")`
recorded; and against `envLoadFail` (the target store refuses every
write) the load failure is re-raised. -/
theorem run_full_error_policy_witness :
    (runFullPipeline envOk "run_1" none).raised = none ∧
    ((runFullPipeline envOrdersBad "run_2" none).raised =
        some PyError.keyError ∧
      MEvent.endPipeline "run_2" "FAILED" ∈
        (runFullPipeline envOrdersBad "run_2" none).events) ∧
    (runFullPipeline envLoadFail "run_3" none).raised =
      some PyError.dbError := by
  refine ⟨?_, ?_, ?_⟩
  · exact (run_full_error_policy envOk "run_1" none).1
      ⟨tdOk, by decide, by decide⟩
  · exact (run_full_error_policy envOrdersBad "run_2" none).2.1
      PyError.keyError (by decide) (Or.inl (by decide))
  · exact ((run_full_error_policy envLoadFail "run_3" none).2.1
      PyError.dbError (by decide) (Or.inr ⟨tdOk, by decide, by decide⟩)).1


/-- C2 (amended): in `run_full_pipeline`, on every terminal path on which
the extracted-table set is nonempty, `end_pipeline(run_id, status)` is
invoked exactly once, with a terminal status (`SUCCESS` or `FAILED`);
but on the path where the extracted-table set is empty the method returns
without ever invoking `end_pipeline`, leaving the run in `RUNNING`. -/
theorem run_full_end_pipeline_policy (env : Env) (run_id : String)
    (table : Option String) :
    ((extractPhase env table).1 = [] →
      ((runFullPipeline env run_id table).events.filter MEvent.isEnd)
        = []) ∧
    ((extractPhase env table).1 ≠ [] →
      ∃ s, (s = "SUCCESS" ∨ s = "FAILED") ∧
        ((runFullPipeline env run_id table).events.filter MEvent.isEnd) =
          [MEvent.endPipeline run_id s]) := by
  have hnoendE := extractPhase_no_end env table
  unfold runFullPipeline
  by_cases hemp : (extractPhase env table).1.isEmpty = true
  · rw [if_pos hemp]
    constructor
    · intro _
      simp [List.filter_append, hnoendE, List.filter, MEvent.isEnd]
    · intro hne
      exact absurd (List.isEmpty_iff.mp hemp) hne
  · rw [if_neg hemp]
    cases hT : transformTables env (extractPhase env table).1 with
    | mk tf evT =>
      have hnoendT : evT.filter MEvent.isEnd = [] := by
        have h0 := transformTables_no_end env (extractPhase env table).1
        rw [hT] at h0
        exact h0
      cases tf with
      | error e0 =>
        constructor
        · intro h0
          rw [h0] at hemp
          exact absurd rfl hemp
        · intro _
          refine ⟨"FAILED", Or.inr rfl, ?_⟩
          simp only [runFullGo]
          simp [List.filter_append, hnoendE, hnoendT, List.filter,
            MEvent.isEnd]
      | ok td0 =>
        simp only [runFullGo]
        cases hL : loadTables env "full" td0 with
        | mk lf lp =>
          cases lp with
          | mk evL ws =>
            have hnoendL : evL.filter MEvent.isEnd = [] := by
              have h0 := loadTables_no_end env "full" td0
              rw [hL] at h0
              exact h0
            cases lf with
            | error e0 =>
              constructor
              · intro h0
                rw [h0] at hemp
                exact absurd rfl hemp
              · intro _
                refine ⟨"FAILED", Or.inr rfl, ?_⟩
                simp only [runFullLoad]
                simp [List.filter_append, hnoendE, hnoendT, hnoendL,
                  List.filter, MEvent.isEnd]
            | ok u =>
              cases u
              constructor
              · intro h0
                rw [h0] at hemp
                exact absurd rfl hemp
              · intro _
                refine ⟨"SUCCESS", Or.inl rfl, ?_⟩
                simp only [runFullLoad]
                simp [List.filter_append, hnoendE, hnoendT, hnoendL,
                  List.filter, MEvent.isEnd]

/-- C2 witness: a run with nonempty extraction (`envOk`) ends the
pipeline exactly once with a terminal status, and the empty-extraction
clause at `envFailAll` records no `end_pipeline` call. -/
theorem run_full_end_pipeline_policy_witness :
    (∃ s, (s = "SUCCESS" ∨ s = "FAILED") ∧
      ((runFullPipeline envOk "run_1" none).events.filter MEvent.isEnd) =
        [MEvent.endPipeline "run_1" s]) ∧
    ((runFullPipeline envFailAll "run_0" none).events.filter MEvent.isEnd)
      = [] := by
  constructor
  · exact (run_full_end_pipeline_policy envOk "run_1" none).2 (by decide)
  · exact (run_full_end_pipeline_policy envFailAll "run_0" none).1
      (by decide)

/-- C5: in a full run over the configured table set, when at least one
table was extracted (the extracted set is nonempty) and the transform and
load phases succeed, the run ends with `end_pipeline(run_id, "SUCCESS")`
and raises nothing — even if other tables failed extraction — and every
table whose extraction failed is absent from the data passed to the
transform phase, from the transform output, and from the writes the load
phase sends to the target store. -/
theorem run_full_isolated_failure_success (env : Env) (run_id : String)
    (td : List (String × DataFrame)) (evT evL : List MEvent)
    (ws : List (String × String × DataFrame))
    (hne : (extractPhase env none).1 ≠ [])
    (ht : transformTables env (extractPhase env none).1 =
      (Except.ok td, evT))
    (hl : loadTables env "full" td = (Except.ok (), evL, ws)) :
    (runFullPipeline env run_id none).raised = none ∧
    ((runFullPipeline env run_id none).events.filter MEvent.isEnd) =
      [MEvent.endPipeline run_id "SUCCESS"] ∧
    ∀ t, extractionFailedFull env t →
      t ∉ (extractPhase env none).1.map Prod.fst ∧
      t ∉ td.map Prod.fst ∧
      ∀ w ∈ ws, w.1 ≠ t := by
  have hnoendE := extractPhase_no_end env none
  have hnoendT : evT.filter MEvent.isEnd = [] := by
    have h0 := transformTables_no_end env (extractPhase env none).1
    rw [ht] at h0
    exact h0
  have hnoendL : evL.filter MEvent.isEnd = [] := by
    have h0 := loadTables_no_end env "full" td
    rw [hl] at h0
    exact h0
  have hrun : runFullPipeline env run_id none =
      { raised := none
        events := [MEvent.startPipeline run_id] ++
          (extractPhase env none).2 ++ evT ++ evL ++
          [MEvent.endPipeline run_id "SUCCESS"]
        writes := ws } := by
    unfold runFullPipeline
    rw [if_neg (fun hc => hne (List.isEmpty_iff.mp hc))]
    rw [ht]
    simp only [runFullGo]
    rw [hl]
    simp only [runFullLoad]
  refine ⟨by rw [hrun], ?_, ?_⟩
  · rw [hrun]
    simp [List.filter_append, hnoendE, hnoendT, hnoendL, List.filter,
      MEvent.isEnd]
  · intro t hf
    have habs : t ∉ (extractPhase env none).1.map Prod.fst :=
      extractionFailed_not_mem env t hf
    have htd : t ∉ td.map Prod.fst := by
      rw [transformTables_ok_keys env (extractPhase env none).1 td evT ht]
      exact habs
    refine ⟨habs, htd, ?_⟩
    intro w hw heq
    have : w.1 ∈ td.map Prod.fst := by
      have h0 := loadTables_writes_keys env "full" td w
      rw [hl] at h0
      exact h0 hw
    rw [heq] at this
    exact htd this

/-- C5 witness: against `envOrdersMissing` (orders CSV absent, customers
and products extracted) the run succeeds and `orders` is absent from the
transform output. -/
theorem run_full_isolated_failure_success_witness :
    (runFullPipeline envOrdersMissing "run_1" none).raised = none ∧
    "orders" ∉ tdOM.map Prod.fst := by
  have h := run_full_isolated_failure_success envOrdersMissing "run_1"
    tdOM (transformTables envOrdersMissing extOM).2
    (loadTables envOrdersMissing "full" tdOM).2.1
    (loadTables envOrdersMissing "full" tdOM).2.2
    (by decide) (by decide) (by decide)
  exact ⟨h.1, (h.2.2 "orders" (Or.inl ⟨by decide, by decide⟩)).2.1⟩

/-- C8: the transform phase ignores the validation verdict for control
flow: for any validator capability, a table whose verdict has
`is_valid = false` is still business-rule transformed exactly as if it
were valid, included in the transform-phase output (with its
transformation recorded using the verdict's quality score), and, whenever
the target store accepts the write, subsequently loaded. -/
theorem transform_invalid_verdict_proceeds (env : Env) (name : String)
    (df dft : DataFrame) (rest out : List (String × DataFrame))
    (evs : List MEvent)
    (hv : (env.validate (DataCleaner.clean df name) name).is_valid = false)
    (hb : applyBusinessLogic (DataCleaner.clean df name) name =
      Except.ok dft)
    (hr : transformTables env rest = (Except.ok out, evs)) :
    transformTables env ((name, df) :: rest) =
      (Except.ok ((name, dft) :: out),
        MEvent.recordTransformation name df.nrows dft.nrows
          (env.validate (DataCleaner.clean df name) name).quality_score
          :: evs) ∧
    ∀ mode, env.writeOk name = true →
      (name, mode, dft) ∈ (loadTables env mode ((name, dft) :: out)).2.2 := by
  constructor
  · unfold transformTables
    rw [hb, hr]
  · intro mode hw
    unfold loadTables
    rw [if_pos hw]
    exact List.mem_cons_self _ _

/-- C8 witness: with a validator reporting `is_valid = false` and quality
score 40 for every table, the customers table is still transformed,
recorded with score 40, and written to the target store. -/
theorem transform_invalid_verdict_proceeds_witness :
    transformTables envValFalse [("customers", customersDF)] =
      (Except.ok [("customers", customersTransformed)],
        [MEvent.recordTransformation "customers" 3 3 40]) ∧
    ("customers", "full", customersTransformed) ∈
      (loadTables envValFalse "full"
        [("customers", customersTransformed)]).2.2 := by
  have h := transform_invalid_verdict_proceeds envValFalse "customers"
    customersDF customersTransformed [] [] [] (by decide) (by decide) rfl
  exact ⟨h.1.trans (by decide), h.2 "full" (by decide)⟩

/-- Assigning a fresh column name appends the column at the end. -/
theorem setColScalar_fresh (df : DataFrame) (n : String) (d : Dtype)
    (v : Value) (h : df.hasCol n = false) :
    df.setColScalar n d v =
      ⟨df.cols ++ [⟨n, d, List.replicate df.nrows v⟩]⟩ := by
  unfold DataFrame.setColScalar DataFrame.setCol
  have hno : (df.cols.any (fun c => c.name == n)) = false := h
  rw [if_neg (by rw [hno]; exact fun hc => Bool.noConfusion hc)]

/-- Appending one column whose values have the frame's row count keeps
the row count. -/
theorem nrows_append_replicate (df : DataFrame) (n : String) (d : Dtype)
    (v : Value) :
    DataFrame.nrows ⟨df.cols ++ [⟨n, d, List.replicate df.nrows v⟩]⟩ =
      df.nrows := by
  cases hc : df.cols with
  | nil => simp [DataFrame.nrows, hc]
  | cons c cs => simp [DataFrame.nrows, hc]

/-- Facts established around the metadata columns: the CSV extractor
returns the parsed file extended with exactly the two metadata columns
`_extracted_at` (the extraction timestamp) and `_source_file` (the csv
file name), leaving every original column unchanged; under the
identity model of the absent `DataCleaner` the metadata columns survive
the transform phase (the validator never alters data and the business
rules only ever assign columns); and the loader writes each transformed
frame to the target store whole. Whether the real cleaner preserves
these columns is not determined by the spec, so the middle conjunct is a
fact of the model only. -/
theorem csv_extract_metadata_shape :
    (∀ (env : Env) (t : String) (df : DataFrame),
      env.csvFiles t = some (Except.ok df) →
      df.hasCol "_extracted_at" = false →
      df.hasCol "_source_file" = false →
      CSVExtractor.extract env t = Except.ok ⟨df.cols ++
        [⟨"_extracted_at", Dtype.datetime,
          List.replicate df.nrows env.now⟩,
         ⟨"_source_file", Dtype.string,
          List.replicate df.nrows (Value.str (t ++ ".csv"))⟩]⟩) ∧
    (∀ (env : Env) (name : String) (df : DataFrame)
      (out : List (String × DataFrame)) (evs : List MEvent),
      df.hasCol "_extracted_at" = true →
      df.hasCol "_source_file" = true →
      transformTables env [(name, df)] = (Except.ok out, evs) →
      ∃ dft, out = [(name, dft)] ∧
        dft.hasCol "_extracted_at" = true ∧
        dft.hasCol "_source_file" = true) ∧
    (∀ (env : Env) (mode name : String) (dft : DataFrame)
      (rest : List (String × DataFrame)),
      env.writeOk name = true →
      (name, mode, dft) ∈
        (loadTables env mode ((name, dft) :: rest)).2.2) := by
  refine ⟨?_, ?_, ?_⟩
  · intro env t df hcsv hea hsf
    unfold CSVExtractor.extract
    simp only [hcsv]
    have h1 : df.setColScalar "_extracted_at" Dtype.datetime env.now =
        ⟨df.cols ++ [⟨"_extracted_at", Dtype.datetime,
          List.replicate df.nrows env.now⟩]⟩ :=
      setColScalar_fresh df _ _ _ hea
    rw [h1]
    have hsf2 : (⟨df.cols ++ [⟨"_extracted_at", Dtype.datetime,
        List.replicate df.nrows env.now⟩]⟩ : DataFrame).hasCol
        "_source_file" = false := by
      unfold DataFrame.hasCol
      rw [List.any_append]
      have hx : df.cols.any (fun c => c.name == "_source_file") = false :=
        hsf
      rw [hx]
      simp
    have h2 := setColScalar_fresh
      ⟨df.cols ++ [⟨"_extracted_at", Dtype.datetime,
        List.replicate df.nrows env.now⟩]⟩
      "_source_file" Dtype.string (Value.str (t ++ ".csv")) hsf2
    rw [h2, nrows_append_replicate, List.append_assoc]
    rfl
  · intro env name df out evs hea hsf htr
    unfold transformTables at htr
    cases hb : applyBusinessLogic (DataCleaner.clean df name) name with
    | error e =>
      simp only [hb] at htr
      exact Except.noConfusion
        (show Except.error e = Except.ok out from congrArg Prod.fst htr)
    | ok dft =>
      simp only [hb, transformTables] at htr
      rw [Prod.mk.injEq] at htr
      have h1 := htr.1
      have hout : [(name, dft)] = out := by injection h1
      refine ⟨dft, hout.symm, ?_, ?_⟩
      · exact applyBusinessLogic_preserves_hasCol df dft name
          "_extracted_at" hb hea
      · exact applyBusinessLogic_preserves_hasCol df dft name
          "_source_file" hb hsf
  · intro env mode name dft rest hw
    unfold loadTables
    rw [if_pos hw]
    exact List.mem_cons_self _ _

/-- Concrete instance of `csv_extract_metadata_shape`: the orders CSV
against `envOk` comes back with the two metadata columns appended; they
survive the (identity-cleaner) transform phase; and the loader's write
for the transformed frame reaches the store. -/
theorem csv_extract_metadata_shape_concrete :
    CSVExtractor.extract envOk "orders" = Except.ok ⟨ordersDF.cols ++
      [⟨"_extracted_at", Dtype.datetime,
        List.replicate ordersDF.nrows envOk.now⟩,
       ⟨"_source_file", Dtype.string,
        List.replicate ordersDF.nrows (Value.str ("orders" ++ ".csv"))⟩]⟩ ∧
    (∃ dft,
      ((transformTables envOk
        [("orders", ordersExtracted)]).1.toOption.getD []) =
        [("orders", dft)] ∧
      dft.hasCol "_extracted_at" = true ∧
      dft.hasCol "_source_file" = true) ∧
    ("orders", "full", ordersExtracted) ∈
      (loadTables envOk "full" [("orders", ordersExtracted)]).2.2 := by
  refine ⟨?_, ?_, ?_⟩
  · exact csv_extract_metadata_shape.1 envOk "orders" ordersDF
      (by decide) (by decide) (by decide)
  · exact csv_extract_metadata_shape.2.1 envOk "orders" ordersExtracted
      ((transformTables envOk [("orders", ordersExtracted)]).1.toOption.getD
        [])
      (transformTables envOk [("orders", ordersExtracted)]).2
      (by decide) (by decide) (by decide)
  · exact csv_extract_metadata_shape.2.2 envOk "full" "orders" ordersExtracted []
      (by decide)
